import Mathlib

/-!
# Verification of the Pulumi workspace / project-manifest layer

Shallow embedding of `pkg/workspace`:
* the project-manifest decoder, project model and runtime descriptor
  (their production file is not present in the sources; they are modelled
  from the specification, pinned by the unit tests that are present), and
* `workspace.go` (present in the sources): the workspace cache, settings
  load and settings save.

External collaborators (JSON/YAML byte parsers, the filesystem, the
schema-validation library, `filepath.Abs`, `DetectProjectPathFrom`,
`LoadProject`, `json.MarshalIndent`) are parameters of the embedded
functions; both concrete syntaxes parse into the same generic value tree.
-/

namespace Pulumi

/-- A generic decoded JSON/YAML document tree.  Mapping keys are arbitrary
values, because a YAML mapping may carry non-string keys (e.g. `4: hello`);
the decoder rejects those. -/
inductive Value where
  | null : Value
  | bool (b : Bool) : Value
  | num (n : Int) : Value
  | str (s : String) : Value
  | seq (elems : List Value) : Value
  | map (entries : List (Value × Value)) : Value

/-- Go's `%s` rendering of a decoded scalar, as used by the bad-key error
message: a string renders as itself, while a non-string value renders with
the `%!s(type=value)` escape (pinned by `TestProjectUnmarshalYAML`, which
expects `%!s(int=4)` for the key `4`).  Composite keys do not occur in any
behaviour pinned here; their rendering is abbreviated. -/
def renderGo : Value → String
  | .str s => s
  | .num n => "%!s(int=" ++ toString n ++ ")"
  | .bool b => "%!s(bool=" ++ (if b then "true" else "false") ++ ")"
  | .null => "%!s(<nil>)"
  | .seq _ => "[...]"
  | .map _ => "map[...]"

/-- The JSON type-name of a value, as used in schema-error messages
("expected string, but got number"). -/
def typeName : Value → String
  | .null => "null"
  | .bool _ => "boolean"
  | .num _ => "number"
  | .str _ => "string"
  | .seq _ => "array"
  | .map _ => "object"

mutual

/-- Modelled from the spec: the recursive key-normalisation walk of the
manifest decoder, which enforces that every mapping key at every nesting
depth is a string.  Returns the first offending (non-string) key, if any. -/
def badKey : Value → Option Value
  | .map entries => badKeyEntries entries
  | .seq elems => badKeyElems elems
  | _ => none

/-- Walk a mapping's entries: a non-string key is reported at once,
otherwise the entry's value and then the remaining entries are searched. -/
def badKeyEntries : List (Value × Value) → Option Value
  | [] => none
  | (k, v) :: rest =>
    match k with
    | .str _ =>
      match badKey v with
      | some b => some b
      | none => badKeyEntries rest
    | bad => some bad

/-- Walk a sequence's elements in order. -/
def badKeyElems : List Value → Option Value
  | [] => none
  | v :: rest =>
    match badKey v with
    | some b => some b
    | none => badKeyElems rest

end

/-- Look up a string key in a decoded mapping (first match wins). -/
def lookupStr : List (Value × Value) → String → Option Value
  | [], _ => none
  | (k, v) :: rest, key =>
    match k with
    | .str s => if s = key then some v else lookupStr rest key
    | _ => lookupStr rest key

/-- The two concrete manifest formats. -/
inductive Lang where
  | json
  | yaml

/-- The message used when the top-level decoded value is not an
object/mapping; it names the concrete format. -/
def objectError : Lang → String
  | .json => "expected a JSON object"
  | .yaml => "expected a YAML object"

/-- A structured error reported by the schema validator: a document path
(without the `#/` prefix) and a human-readable message. -/
structure ValidationError where
  path : String
  message : String
deriving DecidableEq, Repr

/-- Modelled from the spec: the aggregated multi-error text — first line
`"<N> errors occurred:"`, then one line per error prefixed by a tab and
`"* "`, formatted `"#/<path>: <message>"`, in reported order, with a
trailing blank line. -/
def formatMulti (errs : List ValidationError) : String :=
  toString errs.length ++ " errors occurred:\n" ++
    String.join (errs.map (fun e => "\t* #/" ++ e.path ++ ": " ++ e.message ++ "\n")) ++
    "\n"

/-- Type errors for an optional plain-string field (`main`, `backend`):
an absent field and a string field are fine, anything else is one
"expected string" error. -/
def fieldTypeErrors (entries : List (Value × Value)) (field : String) :
    List ValidationError :=
  match lookupStr entries field with
  | none => []
  | some v =>
    match v with
    | .str _ => []
    | _ => [⟨field, "expected string, but got " ++ typeName v⟩]

/-- Schema errors for the `runtime` field, which the schema models as a
union of string-or-object: a wrong-typed value fails the `oneOf` and both
branches, yielding three errors (pinned by the unmarshal tests). -/
def runtimeErrors (entries : List (Value × Value)) : List ValidationError :=
  match lookupStr entries "runtime" with
  | none => []
  | some v =>
    match v with
    | .str _ => []
    | .map _ => []
    | _ =>
      [⟨"runtime", "oneOf failed"⟩,
       ⟨"runtime", "expected string, but got " ++ typeName v⟩,
       ⟨"runtime", "expected object, but got " ++ typeName v⟩]

/-- Modelled from the spec: the external schema validator (a black box
whose error ordering is preserved verbatim), restricted to the fields this
layer inspects.  Its natural reporting order on the pinned inputs is
`runtime`, then `main`, then `backend`. -/
def validateSchema (entries : List (Value × Value)) : List ValidationError :=
  runtimeErrors entries ++ fieldTypeErrors entries "main" ++
    fieldTypeErrors entries "backend"

/-- Modelled from the spec: `ProjectRuntimeInfo` — a runtime name plus an
open-ended options mapping, where `options == nil` (`none`) is a distinct,
preserved state from `options == {}` (`some []`). -/
structure ProjectRuntimeInfo where
  name : String
  options : Option (List (String × Value))

/-- Go `NewProjectRuntimeInfo` constructs the descriptor directly. -/
def NewProjectRuntimeInfo (name : String) (options : Option (List (String × Value))) :
    ProjectRuntimeInfo :=
  ⟨name, options⟩

/-- Modelled from the spec: the generic (syntax-neutral) encoding of a
runtime descriptor, shared by the JSON and YAML marshalers: the compact
bare-string form when options are absent, otherwise an object with the
`name` field and the options mapping. -/
def marshalRuntime (ri : ProjectRuntimeInfo) : Value :=
  match ri.options with
  | none => .str ri.name
  | some opts => .map [(.str "name", .str ri.name),
                       (.str "options", .map (opts.map (fun kv => (.str kv.1, kv.2))))]

/-- Keep only the string-keyed entries of a decoded mapping (after key
normalisation all keys are strings). -/
def stringEntries (entries : List (Value × Value)) : List (String × Value) :=
  entries.filterMap (fun kv =>
    match kv.1 with
    | .str s => some (s, kv.2)
    | _ => none)

/-- Modelled from the spec: the generic decoding of a runtime descriptor,
shared by both syntaxes — it accepts the bare-string form (name only, nil
options) and the object form (a `name` field plus the options mapping). -/
def unmarshalRuntime : Value → Except String ProjectRuntimeInfo
  | .str s => .ok ⟨s, none⟩
  | .map entries =>
    .ok ⟨(match lookupStr entries "name" with
          | some (.str s) => s
          | _ => ""),
         (match lookupStr entries "options" with
          | some (.map oentries) => some (stringEntries oentries)
          | _ => none)⟩
  | _ => .error "expected string or object for runtime"

/-- Modelled from the spec: the typed `Project` model — required name and
runtime, optional backend URL and main entry path. -/
structure Project where
  name : String
  runtime : ProjectRuntimeInfo
  backend : Option String
  main : Option String

/-- The zero (unset) runtime descriptor: empty name, nil options. -/
def isZeroRuntime (ri : ProjectRuntimeInfo) : Bool :=
  ri.name = "" && ri.options.isNone

/-- Modelled from the spec: `Project.Validate` — name must be set, else
`"project is missing a 'name' attribute"`; runtime must be set (non-zero),
else `"project is missing a 'runtime' attribute"`; checked in that order.
`some msg` models a non-nil Go error, `none` models nil. -/
def Project.validate (p : Project) : Option String :=
  if p.name = "" then some "project is missing a 'name' attribute"
  else if isZeroRuntime p.runtime then some "project is missing a 'runtime' attribute"
  else none

/-- An optional plain-string field of the manifest (`backend`, `main`). -/
def strFieldOpt (entries : List (Value × Value)) (field : String) : Option String :=
  match lookupStr entries field with
  | some (.str s) => some s
  | _ => none

/-- Modelled from the spec: the manifest decoder `Decode`, parameterised by
the schema validator (an external collaborator).  Pipeline: top-level must
be an object/mapping (syntax-specific message); every mapping key at every
depth must be a string (key rendered with Go's `%s` verb); the `name` key
must be present and a non-empty string; the `runtime` key must be present;
then the schema validator runs and a non-empty error list is aggregated
into the single multi-error text; on success the typed `Project` is
populated, parsing `runtime` in either of its two accepted shapes.  The
input is the generic tree produced by the concrete syntax's parser. -/
def decodeWith (validate : List (Value × Value) → List ValidationError)
    (lang : Lang) (v : Value) : Except String Project :=
  match v with
  | .map entries =>
    match badKeyEntries entries with
    | some k => .error ("expected only string keys, got '" ++ renderGo k ++ "'")
    | none =>
      match lookupStr entries "name" with
      | none => .error "project is missing a 'name' attribute"
      | some (.str s) =>
        if s = "" then .error "project is missing a non-empty string 'name' attribute"
        else
          match lookupStr entries "runtime" with
          | none => .error "project is missing a 'runtime' attribute"
          | some rv =>
            match validate entries with
            | [] =>
              match unmarshalRuntime rv with
              | .error e => .error e
              | .ok ri =>
                .ok { name := s, runtime := ri,
                      backend := strFieldOpt entries "backend",
                      main := strFieldOpt entries "main" }
            | errs => .error (formatMulti errs)
      | some _ => .error "project is missing a non-empty string 'name' attribute"
  | _ => .error (objectError lang)

/-- The manifest decoder with the modelled schema validator plugged in. -/
def decode (lang : Lang) (v : Value) : Except String Project :=
  decodeWith validateSchema lang v

/-! ## workspace.go -/

/-- The `Settings` value held by a workspace: the deprecated configuration mapping
from namespaced name to a config map.  `none` models a nil Go map, distinct
from `some []` (an allocated empty map); inner config values are opaque
strings. -/
structure Settings where
  configDeprecated : Option (List (String × List (String × String)))
deriving DecidableEq, Repr

/-- Modelled from the spec: `Settings.IsEmpty` (defined in the settings
file, absent from the sources) — a `Settings` is empty when its
configuration mapping has no entries. -/
def Settings.isEmpty (s : Settings) : Bool :=
  match s.configDeprecated with
  | none => true
  | some m => m.isEmpty

/-- The outcome of `ioutil.ReadFile`: the file is absent
(`os.IsNotExist`), some other read error occurred, or the bytes were
read. -/
inductive ReadResult where
  | notFound : ReadResult
  | failure (e : String) : ReadResult
  | content (b : String) : ReadResult

/-- Go `projectWorkspace.readSettings`: read the settings file; an absent file
yields the zero `Settings` (nil mapping) with no error; any other read
error is returned; otherwise the bytes are JSON-unmarshalled (the parser is
an external collaborator, passed as `parse`). -/
def readSettings (readFile : String → ReadResult)
    (parse : String → Except String Settings) (settingsPath : String) :
    Except String Settings :=
  match readFile settingsPath with
  | .notFound => .ok ⟨none⟩
  | .failure e => .error e
  | .content b => parse b

/-- The outcome of `os.Remove`: success, file-already-absent
(`os.IsNotExist`), or another error. -/
inductive RemoveResult where
  | ok : RemoveResult
  | notExist : RemoveResult
  | failure (e : String) : RemoveResult

/-- A filesystem operation requested by `Save`, with the permission bits it
passes. -/
inductive FsOp where
  | remove (path : String) : FsOp
  | mkdirAll (dir : String) (perm : Nat) : FsOp
  | writeFile (path : String) (perm : Nat) (contents : String) : FsOp
deriving DecidableEq, Repr

/-- The external outcomes `Save` depends on: the result of `os.Remove`, of
`os.MkdirAll`, of `json.MarshalIndent` on the (pruned) settings, and of
`ioutil.WriteFile` (`none` = success, `some e` = that error). -/
structure SaveEnv where
  removeRes : RemoveResult
  mkdirRes : Option String
  marshalIndent : Settings → Except String String
  writeRes : Option String

/-- The prune loop at the head of `Save`: delete every top-level entry of
the deprecated configuration mapping whose inner map is empty (shallow —
inner maps are not pruned recursively). -/
def pruneConfig (m : List (String × List (String × String))) :
    List (String × List (String × String)) :=
  m.filter (fun kv => !kv.2.isEmpty)

/-- Go `projectWorkspace.Save`: prune empty config entries; if the pruned
settings are empty, remove the settings file (tolerating file-already-
absent) instead of writing; otherwise create the containing directory with
permissions 0700 and write the marshalled settings with permissions 0600.
Returns the settings as left in the workspace (Go mutates them in place),
the filesystem operations issued, and the error result (`none` = nil). -/
def save (env : SaveEnv) (settingsFile settingsDir : String) (s : Settings) :
    Settings × List FsOp × Option String :=
  let pruned : Settings := ⟨s.configDeprecated.map pruneConfig⟩
  if pruned.isEmpty then
    match env.removeRes with
    | .ok => (pruned, [.remove settingsFile], none)
    | .notExist => (pruned, [.remove settingsFile], none)
    | .failure e => (pruned, [.remove settingsFile], some e)
  else
    match env.mkdirRes with
    | some e => (pruned, [.mkdirAll settingsDir 0o700], some e)
    | none =>
      match env.marshalIndent pruned with
      | .error e => (pruned, [.mkdirAll settingsDir 0o700], some e)
      | .ok b =>
        (pruned, [.mkdirAll settingsDir 0o700, .writeFile settingsFile 0o600 b],
         env.writeRes)

/-- A workspace handle (`projectWorkspace`): the package name, the path to
the project file, and the owned settings. -/
structure Workspace where
  name : String
  project : String
  settings : Settings
deriving DecidableEq, Repr

/-- Go `projectWorkspace.Settings`: the mutable settings accessor. -/
def Workspace.settingsOf (w : Workspace) : Settings :=
  w.settings

/-- The process-wide workspace cache, keyed by absolute project directory.
Insertion conses; lookup takes the most recent binding, matching Go map
assignment/lookup observationally. -/
def Cache := List (String × Workspace)

/-- Go `loadFromCache`: look the key up in the shared mapping. -/
def loadFromCache : Cache → String → Option Workspace
  | [], _ => none
  | (k, w) :: rest, key => if k = key then some w else loadFromCache rest key

/-- Go `upsertIntoCache`: store the handle under the key. -/
def upsertIntoCache (key : String) (w : Workspace) (c : Cache) : Cache :=
  (key, w) :: c

/-- The external collaborators `NewFrom` calls: `filepath.Abs`,
`DetectProjectPathFrom` (an empty path means no project file found),
`LoadProject`, the settings-file read and JSON parse, and the settings-path
derivation (which involves the current user's home directory). -/
structure Env where
  abs : String → Except String String
  detect : String → Except String String
  loadProject : String → Except String Project
  readFile : String → ReadResult
  parseSettings : String → Except String Settings
  settingsPath : String → String → String

/-- Go `NewFrom`: resolve the directory to an absolute path; return the cached
handle on a hit; otherwise detect the project file (failing with
`"no Pulumi.yaml project file found"` when detection yields an empty path),
load the project, read the settings (defaulting an absent file), replace a
nil deprecated-config mapping with an empty one, cache the handle and
return it.  Returns the result together with the cache state after the
call. -/
def NewFrom (env : Env) (st : Cache) (dir : String) :
    Except String Workspace × Cache :=
  match env.abs dir with
  | .error e => (.error e, st)
  | .ok absDir =>
    match loadFromCache st absDir with
    | some w => (.ok w, st)
    | none =>
      match env.detect absDir with
      | .error e => (.error e, st)
      | .ok path =>
        if path = "" then (.error "no Pulumi.yaml project file found", st)
        else
          match env.loadProject path with
          | .error e => (.error e, st)
          | .ok proj =>
            match readSettings env.readFile env.parseSettings
                (env.settingsPath proj.name path) with
            | .error e => (.error e, st)
            | .ok s =>
              let s' : Settings :=
                match s.configDeprecated with
                | none => ⟨some []⟩
                | some m => ⟨some m⟩
              let w : Workspace := ⟨proj.name, path, s'⟩
              (.ok w, upsertIntoCache absDir w st)

/-! ## Concrete fixtures used to instantiate the theorems -/

/-- A concrete environment for exercising `NewFrom`: every collaborator
succeeds, the settings file is absent. -/
def envA : Env :=
  ⟨fun _ => .ok "/p", fun _ => .ok "/p/Pulumi.yaml",
   fun _ => .ok ⟨"proj", ⟨"test", none⟩, none, none⟩,
   fun _ => .notFound, fun _ => .error "unused", fun _ _ => "sp"⟩

/-- The workspace handle `envA` constructs for directory `/p`. -/
def wA : Workspace := ⟨"proj", "/p/Pulumi.yaml", ⟨some []⟩⟩

/-- A concrete environment whose detection, project-load and settings-read
collaborators all fail, so that any successful call through it must have
been served from the cache. -/
def envB : Env :=
  ⟨fun _ => .ok "/p", fun _ => .error "detect must not run",
   fun _ => .error "load must not run", fun _ => .failure "read must not run",
   fun _ => .error "parse must not run", fun _ _ => "sp"⟩

/-! ## Helper lemmas -/

/-- Marshalling an options list into a mapping and collecting the
string-keyed entries back is the identity. -/
lemma stringEntries_map (l : List (String × Value)) :
    stringEntries (l.map (fun kv => (Value.str kv.1, kv.2))) = l := by
  induction l with
  | nil => rfl
  | cons kv rest ih =>
    simp only [List.map_cons, stringEntries, List.filterMap_cons] at ih ⊢
    exact congrArg (List.cons (kv.1, kv.2)) ih

/-! ## Claim theorems -/

/-- C9: `Project.Validate` checks its invariants in order and fails fast —
empty name gives the missing-name error regardless of the runtime; a
non-empty name with a zero (unset) runtime gives the missing-runtime error;
with both set it returns nil. -/
theorem project_validate_order :
    (∀ p : Project, p.name = "" →
      p.validate = some "project is missing a 'name' attribute") ∧
    (∀ p : Project, p.name ≠ "" → isZeroRuntime p.runtime = true →
      p.validate = some "project is missing a 'runtime' attribute") ∧
    (∀ p : Project, p.name ≠ "" → isZeroRuntime p.runtime = false →
      p.validate = none) := by
  refine ⟨?_, ?_, ?_⟩ <;> intro p h1 <;> simp [Project.validate, h1]

/-- Instantiation of `project_validate_order` on the concrete projects of
`TestProjectValidation`. -/
theorem project_validate_order_witness :
    Project.validate ⟨"", ⟨"", none⟩, none, none⟩ =
      some "project is missing a 'name' attribute" ∧
    Project.validate ⟨"a project", ⟨"", none⟩, none, none⟩ =
      some "project is missing a 'runtime' attribute" ∧
    Project.validate ⟨"a project", ⟨"test", none⟩, none, none⟩ = none :=
  ⟨project_validate_order.1 _ rfl,
   project_validate_order.2.1 _ (by decide) rfl,
   project_validate_order.2.2 _ (by decide) rfl⟩

/-- C8: encoding a RuntimeDescriptor and decoding the result through the
shared generic form (used by both the JSON and the YAML codec) yields an
equal name and a key-for-key equal options mapping with all values
preserved; nil options stay nil. -/
theorem runtime_roundtrip (name : String) (opts : Option (List (String × Value)))
    (_h : name ≠ "") :
    unmarshalRuntime (marshalRuntime ⟨name, opts⟩) = .ok ⟨name, opts⟩ := by
  cases opts with
  | none => rfl
  | some l => simp [marshalRuntime, unmarshalRuntime, lookupStr, stringEntries_map]

/-- Instantiation of `runtime_roundtrip` on the descriptors of
`TestProjectRuntimeInfoRoundtripYAML`: nil options and a boolean/string
options mapping. -/
theorem runtime_roundtrip_witness :
    unmarshalRuntime (marshalRuntime ⟨"nodejs", none⟩) = .ok ⟨"nodejs", none⟩ ∧
    unmarshalRuntime (marshalRuntime
        ⟨"nodejs", some [("typescript", .bool true), ("stringOption", .str "hello")]⟩) =
      .ok ⟨"nodejs", some [("typescript", .bool true), ("stringOption", .str "hello")]⟩ :=
  ⟨runtime_roundtrip "nodejs" none (by decide),
   runtime_roundtrip "nodejs" _ (by decide)⟩

/-- C4: a top-level decoded value that is not an object/mapping fails with
exactly the syntax-specific message, for any schema validator (so before
any key, schema or presence check); in particular the bare scalar
`"hello"` in each syntax. -/
theorem decode_non_object_fails :
    (∀ validate v, (∀ entries, v ≠ Value.map entries) →
      decodeWith validate Lang.json v = .error "expected a JSON object" ∧
      decodeWith validate Lang.yaml v = .error "expected a YAML object") ∧
    decode Lang.json (.str "hello") = .error "expected a JSON object" ∧
    decode Lang.yaml (.str "hello") = .error "expected a YAML object" := by
  refine ⟨?_, rfl, rfl⟩
  intro validate v h
  cases v with
  | map entries => exact absurd rfl (h entries)
  | _ => exact ⟨rfl, rfl⟩

/-- Instantiation of `decode_non_object_fails` at a non-object scalar and a
validator that would report an error if it were (wrongly) consulted. -/
theorem decode_non_object_fails_witness :
    decodeWith (fun _ => [⟨"x", "y"⟩]) Lang.json (.num 7) =
      .error "expected a JSON object" ∧
    decodeWith (fun _ => [⟨"x", "y"⟩]) Lang.yaml (.num 7) =
      .error "expected a YAML object" :=
  decode_non_object_fails.1 _ _ (fun _ h => Value.noConfusion h)

/-- C2 (as stated, refuted): decoding the YAML document `4: hello` does
not fail with `expected only string keys, got '4'` — the offending key is
rendered with Go's `%s` verb, so the message is
`expected only string keys, got '%!s(int=4)'` (as `TestProjectUnmarshalYAML`
pins). -/
theorem decode_nonstring_key_message_cex :
    decode Lang.yaml (.map [(.num 4, .str "hello")]) =
      .error "expected only string keys, got '%!s(int=4)'" ∧
    decode Lang.yaml (.map [(.num 4, .str "hello")]) ≠
      .error "expected only string keys, got '4'" := by
  refine ⟨rfl, ?_⟩
  intro h
  have h2 : (Except.error "expected only string keys, got '%!s(int=4)'" :
      Except String Project) = .error "expected only string keys, got '4'" := h
  injection h2 with h3
  exact absurd h3 (by decide)

/-- C2 (amended): whenever the decoded tree holds a non-string mapping key
at any depth, decoding fails — for any schema validator, so before schema
validation — with `expected only string keys, got '<k>'` where `<k>` is the
Go `%s` rendering of the first offending key (`%!s(int=4)` for the key
`4`); the nested case `hello: (6: bad)` is included concretely. -/
theorem decode_nonstring_key_fails :
    (∀ validate lang entries k, badKeyEntries entries = some k →
      decodeWith validate lang (.map entries) =
        .error ("expected only string keys, got '" ++ renderGo k ++ "'")) ∧
    decode Lang.yaml (.map [(.str "hello", .map [(.num 6, .str "bad")])]) =
      .error "expected only string keys, got '%!s(int=6)'" := by
  refine ⟨?_, rfl⟩
  intro validate lang entries k hk
  simp [decodeWith, hk]

/-- Instantiation of `decode_nonstring_key_fails` on the root-level bad key
of `TestProjectUnmarshalYAML`, with a validator that would report an error
if it were (wrongly) consulted. -/
theorem decode_nonstring_key_fails_witness :
    decodeWith (fun _ => [⟨"x", "y"⟩]) Lang.yaml (.map [(.num 4, .str "hello")]) =
      .error "expected only string keys, got '%!s(int=4)'" :=
  decode_nonstring_key_fails.1 (fun _ => [⟨"x", "y"⟩]) Lang.yaml
    [(.num 4, .str "hello")] (.num 4) rfl

/-- C3: the presence checks run in order, short-circuit, and run for any
schema validator (so before schema validation is consulted for the cases
they cover): no `name` key gives the missing-name error; a `name` that is
not a non-empty string gives the non-empty-string-name error; a valid name
with no `runtime` key gives the missing-runtime error. -/
theorem decode_presence_checks_order :
    (∀ validate lang entries, badKeyEntries entries = none →
      lookupStr entries "name" = none →
      decodeWith validate lang (.map entries) =
        .error "project is missing a 'name' attribute") ∧
    (∀ validate lang entries nv, badKeyEntries entries = none →
      lookupStr entries "name" = some nv → (∀ t, nv = Value.str t → t = "") →
      decodeWith validate lang (.map entries) =
        .error "project is missing a non-empty string 'name' attribute") ∧
    (∀ validate lang entries s, badKeyEntries entries = none →
      lookupStr entries "name" = some (.str s) → s ≠ "" →
      lookupStr entries "runtime" = none →
      decodeWith validate lang (.map entries) =
        .error "project is missing a 'runtime' attribute") := by
  refine ⟨?_, ?_, ?_⟩
  · intro validate lang entries hk hn
    simp [decodeWith, hk, hn]
  · intro validate lang entries nv hk hn hstr
    cases nv with
    | str t => have ht := hstr t rfl; subst ht; simp [decodeWith, hk, hn]
    | _ => simp [decodeWith, hk, hn]
  · intro validate lang entries s hk hn hs hr
    simp [decodeWith, hk, hn, hs, hr]

/-- Instantiation of `decode_presence_checks_order` on the documents of
`TestProjectUnmarshalJSON`/`YAML` (`\x7b\x7d`, `name: ""`, `name:`,
`name: project`), each with a validator that would report an error if it
were (wrongly) consulted. -/
theorem decode_presence_checks_order_witness :
    decodeWith (fun _ => [⟨"x", "y"⟩]) Lang.json (.map []) =
      .error "project is missing a 'name' attribute" ∧
    decodeWith (fun _ => [⟨"x", "y"⟩]) Lang.json (.map [(.str "name", .str "")]) =
      .error "project is missing a non-empty string 'name' attribute" ∧
    decodeWith (fun _ => [⟨"x", "y"⟩]) Lang.yaml (.map [(.str "name", .null)]) =
      .error "project is missing a non-empty string 'name' attribute" ∧
    decodeWith (fun _ => [⟨"x", "y"⟩]) Lang.json (.map [(.str "name", .str "project")]) =
      .error "project is missing a 'runtime' attribute" :=
  ⟨decode_presence_checks_order.1 _ _ _ rfl rfl,
   decode_presence_checks_order.2.1 _ _ _ _ rfl rfl
     (fun t ht => by injection ht with h; exact h.symm),
   decode_presence_checks_order.2.1 _ _ _ _ rfl rfl
     (fun t ht => Value.noConfusion ht),
   decode_presence_checks_order.2.2 _ _ _ "project" rfl rfl (by decide) rfl⟩

/-- C1: whenever the decoder reaches schema validation (object top level,
string keys, a non-empty string `name`, a `runtime` key) and the validator
reports one or more errors, Decode returns exactly one error, the
aggregated text of `formatMulti` — `"<N> errors occurred:"`, one
tab-`"* "`-prefixed line `"#/<path>: <message>"` per error in reported
order, and a trailing blank line; concretely, the document
`name: project, runtime: test, backend: 4, main: (object)` yields the
2-line aggregate naming `#/main` before `#/backend`. -/
theorem decode_aggregates_validator_errors :
    (∀ validate lang entries s rv e errs, badKeyEntries entries = none →
      lookupStr entries "name" = some (.str s) → s ≠ "" →
      lookupStr entries "runtime" = some rv →
      validate entries = e :: errs →
      decodeWith validate lang (.map entries) =
        .error (formatMulti (e :: errs))) ∧
    decode Lang.json
        (.map [(.str "name", .str "project"), (.str "runtime", .str "test"),
               (.str "backend", .num 4), (.str "main", .map [])]) =
      .error ("2 errors occurred:\n\t* #/main: expected string, but got object\n" ++
              "\t* #/backend: expected string, but got number\n\n") := by
  refine ⟨?_, rfl⟩
  intro validate lang entries s rv e errs hk hn hs hr hv
  simp [decodeWith, hk, hn, hs, hr, hv]

/-- Instantiation of `decode_aggregates_validator_errors` on the
wrong-typed-runtime document, which the modelled validator reports as
three errors in order. -/
theorem decode_aggregates_validator_errors_witness :
    decodeWith validateSchema Lang.json
        (.map [(.str "name", .str "project"), (.str "runtime", .num 4)]) =
      .error (formatMulti
        [⟨"runtime", "oneOf failed"⟩,
         ⟨"runtime", "expected string, but got number"⟩,
         ⟨"runtime", "expected object, but got number"⟩]) :=
  decode_aggregates_validator_errors.1 validateSchema Lang.json _ "project"
    (.num 4) _ _ rfl rfl (by decide) rfl rfl

/-- C7: the settings load defaults an absent file to the zero `Settings`
with no error, propagates any other read error verbatim, and hands the read
bytes to the JSON parser, whose error it returns on a parse failure. -/
theorem readSettings_load_or_default :
    (∀ readFile parse p, readFile p = ReadResult.notFound →
      readSettings readFile parse p = .ok ⟨none⟩) ∧
    (∀ readFile parse p e, readFile p = ReadResult.failure e →
      readSettings readFile parse p = .error e) ∧
    (∀ readFile parse p b pe, readFile p = ReadResult.content b →
      parse b = .error pe → readSettings readFile parse p = .error pe) := by
  refine ⟨?_, ?_, ?_⟩
  · intro readFile parse p h; simp [readSettings, h]
  · intro readFile parse p e h; simp [readSettings, h]
  · intro readFile parse p b pe h hp; simp [readSettings, h, hp]

/-- Instantiation of `readSettings_load_or_default` on an absent file, a
permission-style read error, and a malformed file. -/
theorem readSettings_load_or_default_witness :
    readSettings (fun _ => ReadResult.notFound) (fun _ => .error "pe") "p" =
      .ok ⟨none⟩ ∧
    readSettings (fun _ => ReadResult.failure "io") (fun _ => .error "pe") "p" =
      .error "io" ∧
    readSettings (fun _ => ReadResult.content "not json") (fun _ => .error "pe") "p" =
      .error "pe" :=
  ⟨readSettings_load_or_default.1 _ _ "p" rfl,
   readSettings_load_or_default.2.1 _ _ "p" "io" rfl,
   readSettings_load_or_default.2.2 _ _ "p" "not json" "pe" rfl rfl⟩

/-- C6: `Save` first shallow-prunes the config mapping (every top-level
entry with an empty inner map is removed, and the pruned settings are what
the workspace keeps); if the pruned settings are empty it only removes the
settings file, returning nil on success and on file-already-absent and the
error on any other removal failure; otherwise it creates the containing
directory with permissions 0700 and writes the marshalled (indented JSON)
settings with permissions 0600. -/
theorem save_prune_delete_write :
    (∀ env file dir s,
      (save env file dir s).1 = ⟨s.configDeprecated.map pruneConfig⟩) ∧
    (∀ env file dir s,
      (Settings.mk (s.configDeprecated.map pruneConfig)).isEmpty = true →
      (env.removeRes = RemoveResult.ok ∨ env.removeRes = RemoveResult.notExist) →
      save env file dir s =
        (⟨s.configDeprecated.map pruneConfig⟩, [FsOp.remove file], none)) ∧
    (∀ env file dir s e,
      (Settings.mk (s.configDeprecated.map pruneConfig)).isEmpty = true →
      env.removeRes = RemoveResult.failure e →
      save env file dir s =
        (⟨s.configDeprecated.map pruneConfig⟩, [FsOp.remove file], some e)) ∧
    (∀ env file dir s b,
      (Settings.mk (s.configDeprecated.map pruneConfig)).isEmpty = false →
      env.mkdirRes = none →
      env.marshalIndent ⟨s.configDeprecated.map pruneConfig⟩ = .ok b →
      env.writeRes = none →
      save env file dir s =
        (⟨s.configDeprecated.map pruneConfig⟩,
         [FsOp.mkdirAll dir 0o700, FsOp.writeFile file 0o600 b], none)) := by
  refine ⟨?_, ?_, ?_, ?_⟩
  · intro env file dir s
    unfold save
    by_cases h : (Settings.mk (s.configDeprecated.map pruneConfig)).isEmpty = true
    · simp only [h, if_pos]
      cases env.removeRes <;> rfl
    · simp only [eq_self_iff_true, if_neg h]
      cases hm : env.mkdirRes with
      | some e => rfl
      | none =>
        cases env.marshalIndent ⟨s.configDeprecated.map pruneConfig⟩ <;> rfl
  · intro env file dir s h hr
    unfold save
    rcases hr with hr | hr <;> simp [h, hr]
  · intro env file dir s e h hr
    unfold save
    simp [h, hr]
  · intro env file dir s b h hm hmar hw
    unfold save
    simp [h, hm, hmar, hw]

/-- Instantiation of `save_prune_delete_write`: pruning an all-empty config
mapping leads to a delete (nil result even though the file is absent), and
a non-empty mapping leads to the 0700 mkdir and 0600 write of the
marshalled bytes. -/
theorem save_prune_delete_write_witness :
    save ⟨RemoveResult.notExist, none, fun _ => .ok "J", none⟩ "f" "d"
        ⟨some [("k", [])]⟩ = (⟨some []⟩, [FsOp.remove "f"], none) ∧
    save ⟨RemoveResult.ok, none, fun _ => .ok "J", none⟩ "f" "d"
        ⟨some [("k", [("a", "b")])]⟩ =
      (⟨some [("k", [("a", "b")])]⟩,
       [FsOp.mkdirAll "d" 0o700, FsOp.writeFile "f" 0o600 "J"], none) :=
  ⟨save_prune_delete_write.2.1 _ "f" "d" ⟨some [("k", [])]⟩ rfl (Or.inr rfl),
   save_prune_delete_write.2.2.2 _ "f" "d" ⟨some [("k", [("a", "b")])]⟩ "J"
     rfl rfl rfl rfl⟩

/-- Run-level case analysis of `NewFrom`: either the call leaves the cache
unchanged (and any successful result was a cache hit), or it was a miss
that succeeded, inserting the freshly built handle (whose deprecated-config
mapping is non-nil) under the resolved absolute path. -/
lemma newFrom_run (env : Env) (st : Cache) (dir : String) :
    ((NewFrom env st dir).2 = st ∧
      ∀ w, (NewFrom env st dir).1 = .ok w →
        ∃ a, env.abs dir = .ok a ∧ loadFromCache st a = some w) ∨
    (∃ a w, env.abs dir = .ok a ∧ loadFromCache st a = none ∧
      NewFrom env st dir = (.ok w, upsertIntoCache a w st) ∧
      w.settings.configDeprecated.isSome = true) := by
  cases habs : env.abs dir with
  | error e => refine Or.inl ⟨?_, ?_⟩ <;> simp [NewFrom, habs]
  | ok a =>
    cases hc : loadFromCache st a with
    | some w0 =>
      refine Or.inl ⟨?_, ?_⟩
      · simp [NewFrom, habs, hc]
      · intro w h
        simp only [NewFrom, habs, hc] at h
        injection h with h
        exact ⟨a, rfl, by rw [hc, h]⟩
    | none =>
      cases hd : env.detect a with
      | error e => refine Or.inl ⟨?_, ?_⟩ <;> simp [NewFrom, habs, hc, hd]
      | ok path =>
        by_cases hp : path = ""
        · refine Or.inl ⟨?_, ?_⟩ <;> simp [NewFrom, habs, hc, hd, hp]
        · cases hl : env.loadProject path with
          | error e =>
            refine Or.inl ⟨?_, ?_⟩ <;> simp [NewFrom, habs, hc, hd, hp, hl]
          | ok proj =>
            cases hs : readSettings env.readFile env.parseSettings
                (env.settingsPath proj.name path) with
            | error e =>
              refine Or.inl ⟨?_, ?_⟩ <;> simp [NewFrom, habs, hc, hd, hp, hl, hs]
            | ok s =>
              refine Or.inr ⟨a,
                ⟨proj.name, path,
                  match s.configDeprecated with
                  | none => ⟨some []⟩
                  | some m => ⟨some m⟩⟩, rfl, hc, ?_, ?_⟩
              · simp [NewFrom, habs, hc, hd, hp, hl, hs]
              · cases s.configDeprecated <;> rfl

/-- C5: the workspace cache keeps at most one handle per resolved absolute
directory and never evicts — after a successful `NewFrom`, a second call
through any environment resolving to the same absolute path returns the
exact stored handle with the cache unchanged (no collaborator other than
path resolution is consulted), and every existing cache binding survives
every call. -/
theorem newFrom_cached_handle :
    (∀ env env2 st st1 dir dir2 a w, env.abs dir = .ok a →
      NewFrom env st dir = (.ok w, st1) → env2.abs dir2 = .ok a →
      NewFrom env2 st1 dir2 = (.ok w, st1)) ∧
    (∀ env st dir k w0, loadFromCache st k = some w0 →
      loadFromCache (NewFrom env st dir).2 k = some w0) := by
  have hmem : ∀ (env : Env) (st st1 : Cache) (dir a : String) (w : Workspace),
      env.abs dir = .ok a → NewFrom env st dir = (.ok w, st1) →
      loadFromCache st1 a = some w := by
    intro env st st1 dir a w habs hrun
    rcases newFrom_run env st dir with ⟨hst, hok⟩ | ⟨a', w', habs', hmiss, hrun', _⟩
    · rcases hok w (by rw [hrun]) with ⟨a2, habs2, hfound⟩
      rw [habs] at habs2
      injection habs2 with ha
      rw [hrun] at hst
      simp only at hst
      rw [hst, ha]
      exact hfound
    · rw [habs] at habs'
      injection habs' with ha
      rw [hrun] at hrun'
      injection hrun' with h1 h2
      injection h1 with h1
      subst h1 h2 ha
      simp [upsertIntoCache, loadFromCache]
  constructor
  · intro env env2 st st1 dir dir2 a w habs hrun habs2
    have hfound : loadFromCache st1 a = some w := hmem env st st1 dir a w habs hrun
    simp [NewFrom, habs2, hfound]
  · intro env st dir k w0 h
    rcases newFrom_run env st dir with ⟨hst, _⟩ | ⟨a, w, _, hmiss, hrun, _⟩
    · rw [hst]; exact h
    · rw [hrun]
      simp only [upsertIntoCache, loadFromCache]
      have hak : ¬ a = k := by
        intro hak
        rw [hak, h] at hmiss
        exact Option.noConfusion hmiss
      rw [if_neg hak]
      exact h

/-- Instantiation of `newFrom_cached_handle`: after `envA` builds and
caches the handle for `/p`, a call through `envB` — whose detection,
project-load and settings collaborators all fail — still returns that exact
handle, unchanged cache. -/
theorem newFrom_cached_handle_witness :
    NewFrom envB (upsertIntoCache "/p" wA []) "/q" =
      (.ok wA, upsertIntoCache "/p" wA []) :=
  newFrom_cached_handle.1 envA envB [] (upsertIntoCache "/p" wA [])
    "/p" "/q" "/p" wA rfl rfl rfl

/-- C10: `NewFrom` maintains the invariant that every returned and every
cached workspace has a non-nil deprecated-config mapping — a freshly built
handle has a nil mapping replaced by an empty one before it is cached or
returned, so a successful call on an invariant-respecting cache yields an
invariant-respecting result and cache. -/
theorem newFrom_config_nonnil :
    ∀ env st dir w st',
      (∀ k w0, loadFromCache st k = some w0 →
        w0.settings.configDeprecated.isSome = true) →
      NewFrom env st dir = (.ok w, st') →
      w.settings.configDeprecated.isSome = true ∧
      (∀ k w0, loadFromCache st' k = some w0 →
        w0.settings.configDeprecated.isSome = true) := by
  intro env st dir w st' hinv hrun
  rcases newFrom_run env st dir with ⟨hst, hok⟩ | ⟨a, w1, _, _, hrun', hw1⟩
  · rcases hok w (by rw [hrun]) with ⟨a, _, hfound⟩
    rw [hrun] at hst
    simp only at hst
    subst hst
    exact ⟨hinv a w hfound, hinv⟩
  · rw [hrun] at hrun'
    injection hrun' with h1 h2
    injection h1 with h1
    subst h1 h2
    refine ⟨hw1, ?_⟩
    intro k w0 h
    simp only [upsertIntoCache, loadFromCache] at h
    by_cases hak : a = k
    · rw [if_pos hak] at h
      injection h with h
      rw [← h]
      exact hw1
    · rw [if_neg hak] at h
      exact hinv k w0 h

/-- Instantiation of `newFrom_config_nonnil`: the handle `envA` builds from
an absent settings file (nil mapping) carries an allocated empty mapping. -/
theorem newFrom_config_nonnil_witness :
    wA.settings.configDeprecated.isSome = true :=
  (newFrom_config_nonnil envA [] "/p" wA (upsertIntoCache "/p" wA [])
    (fun k w0 h => by simp [loadFromCache] at h) rfl).1

end Pulumi
